import Mathlib

/-!
Shallow embedding of the gdk-pixbuf PSD loader (src/io-psd.c), progressive
loading path: feed_buffer, skip_block, decompress_line, the state machine of
gdk_pixbuf__psd_image_load_increment, and gdk_pixbuf__psd_image_stop_load.

Modelling conventions:
* guchar buffers are lists of Nat; a read of a guchar into a wider integer
  applies % 256 at the read site (parse_uint16/parse_uint32, gchar casts),
  matching the C type invariant.  memcpy between guchar buffers is verbatim.
* guint / guint32 / guint16 machine integers are Nat with explicit reductions
  modulo 2^32 resp. 2^16 exactly where C overflow or signed/unsigned
  conversion matters (feed_buffer's gint-to-guint comparison, the uint16
  bytes_read counter of decompress_line).
* uninitialised g_malloc memory is modelled as zero bytes; an out-of-range
  read of C memory is modelled by List.getD with default 0.
* the while loop of decompress_line and of load_increment may not terminate
  in C; both are embedded with explicit fuel, running out of fuel modelling
  the C loop spinning (none / hang).
* GdkPixbuf allocation never fails in the model, size_func is absent (NULL)
  and the callbacks are no-ops, as none of the claims concern them.
-/

/-- Read states, mirroring the PsdReadState enum of io-psd.c. -/
inductive PsdReadState where
  | PSD_STATE_HEADER
  | PSD_STATE_COLOR_MODE_BLOCK
  | PSD_STATE_RESOURCES_BLOCK
  | PSD_STATE_LAYERS_BLOCK
  | PSD_STATE_COMPRESSION
  | PSD_STATE_LINES_LENGTHS
  | PSD_STATE_CHANNEL_DATA
  | PSD_STATE_DONE
deriving DecidableEq, Repr

open PsdReadState

/-- Errors the progressive loader can report via GError. -/
inductive PsdError where
  | unsupportedCompression
  | corruptImage
deriving DecidableEq, Repr

/-- The PsdContext structure of io-psd.c (progressive-loading fields).
channelsBuffers holds the per-channel planes, linesLengths holds raw bytes
while in PSD_STATE_LINES_LENGTHS and parsed uint16 values afterwards, exactly
as the C code reuses the same allocation. -/
structure PsdContext where
  state : PsdReadState
  buffer : List Nat
  bytesRead : Nat
  bytesToSkip : Nat
  bytesToSkipKnown : Bool
  width : Nat
  height : Nat
  channels : Nat
  depth : Nat
  colorMode : Nat
  compression : Nat
  channelsBuffers : List (List Nat)
  currentChannel : Nat
  currentRow : Nat
  position : Nat
  linesLengths : List Nat
deriving DecidableEq, Repr

/-- parse_uint16: big-endian read of two guchar. -/
def parse_uint16 (buf : List Nat) (i : Nat) : Nat :=
  256 * (buf.getD i 0 % 256) + buf.getD (i + 1) 0 % 256

/-- parse_uint32: big-endian read of four guchar. -/
def parse_uint32 (buf : List Nat) (i : Nat) : Nat :=
  16777216 * (buf.getD i 0 % 256) + 65536 * (buf.getD (i + 1) 0 % 256) +
    256 * (buf.getD (i + 2) 0 % 256) + buf.getD (i + 3) 0 % 256

/-- memcpy(buf + off, xs, xs.length): overwrite xs.length bytes at offset off. -/
def writeAt (buf : List Nat) (off : Nat) (xs : List Nat) : List Nat :=
  buf.take off ++ xs ++ buf.drop (off + xs.length)

/-- feed_buffer of io-psd.c.  The C local how_many is a gint; the comparison
how_many > *size converts it to guint (reduction mod 2^32 of the possibly
negative difference bytes_needed - bytes_read).  Returns the updated
destination buffer, the updated *bytes_read, the advanced input
(*data/*size), and the gboolean result *bytes_read == bytes_needed. -/
def feed_buffer (buffer : List Nat) (bytesRead : Nat) (data : List Nat)
    (bytesNeeded : Nat) : List Nat × Nat × List Nat × Bool :=
  let howSigned : Int := (bytesNeeded : Int) - (bytesRead : Int)
  let howUnsigned : Nat := (howSigned % 4294967296).toNat
  let howMany : Nat := if howUnsigned > data.length then data.length else howUnsigned
  (writeAt buffer bytesRead (data.take howMany),
   bytesRead + howMany,
   data.drop howMany,
   bytesRead + howMany == bytesNeeded)

/-- skip_block of io-psd.c.  Note the C code sets context->bytes_read = 0 on
every call while the 4-byte length prefix is not yet known, then feeds up to
4 bytes; the process-global counter variable has no observable effect and is
not modelled.  Returns the updated context, the advanced input, and the
gboolean completion flag. -/
def skip_block (ctx : PsdContext) (data : List Nat) :
    PsdContext × List Nat × Bool :=
  if ctx.bytesToSkipKnown then
    if data.length < ctx.bytesToSkip then
      ({ ctx with bytesToSkip := ctx.bytesToSkip - data.length }, [], false)
    else
      (ctx, data.drop ctx.bytesToSkip, true)
  else
    let r := feed_buffer ctx.buffer 0 data 4
    if r.2.2.2 then
      let ctx2 := { ctx with
        buffer := r.1,
        bytesRead := r.2.1,
        bytesToSkip := parse_uint32 r.1 0,
        bytesToSkipKnown := true }
      if r.2.2.1.length < ctx2.bytesToSkip then
        ({ ctx2 with bytesToSkip := ctx2.bytesToSkip - r.2.2.1.length }, [], false)
      else
        (ctx2, r.2.2.1.drop ctx2.bytesToSkip, true)
    else
      ({ ctx with buffer := r.1, bytesRead := r.2.1 }, r.2.2.1, false)

/-- Conversion of a guchar value to the C gchar (signed char) it reinterprets
to, as an Int in [-128, 127]. -/
def gcharOf (b : Nat) : Int :=
  if b % 256 < 128 then (b % 256 : Int) else (b % 256 : Int) - 256

/-- One iteration of the while loop of decompress_line: from the current
bytes_read counter (a guint16, always < 2^16) produce the new counter value
and the bytes emitted to *dest during this iteration.  Source reads use the
uint16 counter value as index. -/
def decompressStep (src : List Nat) (br : Nat) : Nat × List Nat :=
  let byte : Int := gcharOf (src.getD br 0)
  let br1 : Nat := (br + 1) % 65536
  if byte = -128 then
    (br1, [])
  else if byte > -1 then
    let count : Nat := (byte + 1).toNat
    ((br1 + count) % 65536,
     (List.range count).map (fun k => src.getD ((br1 + k) % 65536) 0))
  else
    let count : Nat := (1 - byte).toNat
    ((br1 + 1) % 65536, List.replicate count (src.getD br1 0))

/-- The while (bytes_read < line_length) loop of decompress_line, with
explicit fuel; none models the C loop still spinning after that many
iterations.  acc is the output written to *dest so far. -/
def decompressLoop (src : List Nat) (lineLength : Nat) :
    Nat → Nat → List Nat → Option (List Nat)
  | fuel, br, acc =>
    if br < lineLength then
      match fuel with
      | 0 => none
      | f + 1 =>
        let s := decompressStep src br
        decompressLoop src lineLength f s.1 (acc ++ s.2)
    else
      some acc

/-- decompress_line of io-psd.c; fuel lineLength is enough for every run of
the C loop in which the uint16 bytes_read counter does not wrap (it advances
by at least 1 per iteration). -/
def decompress_line (src : List Nat) (lineLength : Nat) : Option (List Nat) :=
  decompressLoop src lineLength lineLength 0 []

/-- The proposition that the while loop of decompress_line exits after
finitely many iterations on the given source and declared line length. -/
def decompressTerminates (src : List Nat) (lineLength : Nat) : Prop :=
  ∃ fuel, (decompressLoop src lineLength fuel 0 []).isSome = true

/-- reset_context of io-psd.c. -/
def reset_context (ctx : PsdContext) : PsdContext :=
  { ctx with bytesRead := 0, bytesToSkip := 0, bytesToSkipKnown := false }

/-- Result of one execution of the switch statement inside the while loop of
gdk_pixbuf__psd_image_load_increment: either the mutated context together
with the not-yet-consumed input, or a decode error (return FALSE with a
GError set). -/
inductive IterResult where
  | ok (ctx : PsdContext) (rest : List Nat)
  | fail (e : PsdError)
deriving DecidableEq, Repr

/-- One execution of the switch in gdk_pixbuf__psd_image_load_increment.
Mirrors the C cases statement by statement; the PSD_STATE_DONE and default
cases set size = 0, discarding the rest of the chunk. -/
def loadIncrementStep (ctx : PsdContext) (data : List Nat) : IterResult :=
  match ctx.state with
  | PSD_STATE_HEADER =>
    let r := feed_buffer ctx.buffer ctx.bytesRead data 26
    if r.2.2.2 then
      let channels := parse_uint16 r.1 12
      let rows := parse_uint32 r.1 14
      let cols := parse_uint32 r.1 18
      let depth := parse_uint16 r.1 22
      let cm := parse_uint16 r.1 24
      .ok (reset_context
        { ctx with
          width := cols, height := rows, channels := channels, depth := depth,
          colorMode := cm,
          buffer := List.replicate (cols * 2) 0,
          linesLengths := List.replicate (2 * channels * rows) 0,
          channelsBuffers := List.replicate channels (List.replicate (cols * rows) 0),
          state := PSD_STATE_COLOR_MODE_BLOCK }) r.2.2.1
    else
      .ok { ctx with buffer := r.1, bytesRead := r.2.1 } r.2.2.1
  | PSD_STATE_COLOR_MODE_BLOCK =>
    let r := skip_block ctx data
    if r.2.2 then
      .ok (reset_context { r.1 with state := PSD_STATE_RESOURCES_BLOCK }) r.2.1
    else
      .ok r.1 r.2.1
  | PSD_STATE_RESOURCES_BLOCK =>
    let r := skip_block ctx data
    if r.2.2 then
      .ok (reset_context { r.1 with state := PSD_STATE_LAYERS_BLOCK }) r.2.1
    else
      .ok r.1 r.2.1
  | PSD_STATE_LAYERS_BLOCK =>
    let r := skip_block ctx data
    if r.2.2 then
      .ok (reset_context { r.1 with state := PSD_STATE_COMPRESSION }) r.2.1
    else
      .ok r.1 r.2.1
  | PSD_STATE_COMPRESSION =>
    let r := feed_buffer ctx.buffer ctx.bytesRead data 2
    if r.2.2.2 then
      let compression := parse_uint16 r.1 0
      if compression = 1 then
        .ok (reset_context
          { ctx with
            buffer := r.1,
            bytesRead := r.2.1,
            compression := compression,
            state := PSD_STATE_LINES_LENGTHS }) r.2.2.1
      else if compression = 0 then
        .ok { ctx with
              buffer := r.1,
              bytesRead := r.2.1,
              compression := compression,
              state := PSD_STATE_CHANNEL_DATA } r.2.2.1
      else
        .fail .unsupportedCompression
    else
      .ok { ctx with buffer := r.1, bytesRead := r.2.1 } r.2.2.1
  | PSD_STATE_LINES_LENGTHS =>
    let r := feed_buffer ctx.linesLengths ctx.bytesRead data
      (2 * ctx.height * ctx.channels)
    if r.2.2.2 then
      .ok (reset_context
        { ctx with
          linesLengths := (List.range (ctx.height * ctx.channels)).map
            (fun i => parse_uint16 r.1 (2 * i)),
          state := PSD_STATE_CHANNEL_DATA }) r.2.2.1
    else
      .ok { ctx with linesLengths := r.1, bytesRead := r.2.1 } r.2.2.1
  | PSD_STATE_CHANNEL_DATA =>
    if ctx.compression = 1 then
      let lineLength := ctx.linesLengths.getD
        (ctx.currentChannel * ctx.height + ctx.currentRow) 0
      let r := feed_buffer ctx.buffer ctx.bytesRead data lineLength
      if r.2.2.2 then
        let out := (decompress_line r.1 lineLength).getD []
        let plane := writeAt (ctx.channelsBuffers.getD ctx.currentChannel [])
          ctx.position out
        let ctx2 := { ctx with
          buffer := r.1,
          bytesRead := 0,
          channelsBuffers := ctx.channelsBuffers.set ctx.currentChannel plane,
          position := ctx.position + ctx.width,
          currentRow := ctx.currentRow + 1 }
        if ctx2.currentRow ≥ ctx2.height then
          let ctx3 := { ctx2 with
            currentChannel := ctx2.currentChannel + 1,
            currentRow := 0,
            position := 0 }
          if ctx3.currentChannel ≥ ctx3.channels then
            .ok { ctx3 with state := PSD_STATE_DONE } r.2.2.1
          else
            .ok ctx3 r.2.2.1
        else
          .ok ctx2 r.2.2.1
      else
        .ok { ctx with buffer := r.1, bytesRead := r.2.1 } r.2.2.1
    else
      let r := feed_buffer ctx.buffer ctx.bytesRead data ctx.width
      .ok { ctx with buffer := r.1, bytesRead := r.2.1 } r.2.2.1
  | PSD_STATE_DONE =>
    .ok ctx []

/-- Result of one call of gdk_pixbuf__psd_image_load_increment. hang models
the C while loop never terminating. -/
inductive FeedResult where
  | ok (ctx : PsdContext)
  | fail (e : PsdError)
  | hang
deriving DecidableEq, Repr

/-- The while (size > 0) loop of gdk_pixbuf__psd_image_load_increment, with
explicit fuel. -/
def psdRun : Nat → PsdContext → List Nat → FeedResult
  | _, ctx, [] => .ok ctx
  | 0, _, _ => .hang
  | fuel + 1, ctx, data =>
    match loadIncrementStep ctx data with
    | .fail e => .fail e
    | .ok ctx2 rest => psdRun fuel ctx2 rest

/-- gdk_pixbuf__psd_image_load_increment: one feed call on a chunk.  The
fuel is generous for every terminating execution of the C loop reachable in
the claims (each iteration either consumes input or advances the cursors). -/
def gdk_pixbuf__psd_image_load_increment (ctx : PsdContext) (data : List Nat) :
    FeedResult :=
  psdRun (data.length + 64) ctx data

/-- gdk_pixbuf__psd_image_begin_load: the freshly initialised PsdContext
(g_malloc(256) accumulation buffer, header state; fields the C code leaves
uninitialised are modelled as 0 / empty). -/
def gdk_pixbuf__psd_image_begin_load : PsdContext :=
  { state := PSD_STATE_HEADER, buffer := List.replicate 256 0, bytesRead := 0,
    bytesToSkip := 0, bytesToSkipKnown := false, width := 0, height := 0,
    channels := 0, depth := 0, colorMode := 0, compression := 0,
    channelsBuffers := [], currentChannel := 0, currentRow := 0, position := 0,
    linesLengths := [] }

/-- The pixel-composition pass of gdk_pixbuf__psd_image_stop_load: zero the
pixels, then for i = 0,1,2 write pixels[rowstride*j + 3*k + i] =
channels_buffers[i][width*j + k], with rowstride modelled as 3*width.  The C
code runs this for channel planes 0, 1, 2 unconditionally, whatever the color
mode or channel count; an out-of-range plane read is modelled as 0. -/
def composePixels (ctx : PsdContext) : List Nat :=
  List.flatten ((List.range ctx.height).map (fun j =>
    List.flatten ((List.range ctx.width).map (fun k =>
      [(ctx.channelsBuffers.getD 0 []).getD (ctx.width * j + k) 0,
       (ctx.channelsBuffers.getD 1 []).getD (ctx.width * j + k) 0,
       (ctx.channelsBuffers.getD 2 []).getD (ctx.width * j + k) 0]))))

/-- gdk_pixbuf__psd_image_stop_load: corrupt-image error unless the machine
reached PSD_STATE_DONE, otherwise the one-time composition pass producing the
final pixel rows. -/
def gdk_pixbuf__psd_image_stop_load (ctx : PsdContext) :
    Except PsdError (List Nat) :=
  if ctx.state = PSD_STATE_DONE then .ok (composePixels ctx)
  else .error .corruptImage

/-- Feeding a list of chunks by successive load_increment calls. -/
def psdFeedChunks : PsdContext → List (List Nat) → FeedResult
  | ctx, [] => .ok ctx
  | ctx, c :: cs =>
    match gdk_pixbuf__psd_image_load_increment ctx c with
    | .ok ctx2 => psdFeedChunks ctx2 cs
    | r => r

/-- Projection used to state machine-level results: final state and number of
allocated channel planes, when the feed sequence succeeded. -/
def resultSummary : FeedResult → Option (PsdReadState × Nat)
  | .ok c => some (c.state, c.channelsBuffers.length)
  | _ => none

/-- Projection: result of stop_load after a feed sequence. -/
def stopOf : FeedResult → Option (Except PsdError (List Nat))
  | .ok c => some (gdk_pixbuf__psd_image_stop_load c)
  | _ => none

/-- Decidable equality for Except results, used to evaluate the model on
concrete streams. -/
instance {e a : Type} [DecidableEq e] [DecidableEq a] : DecidableEq (Except e a) :=
  fun x y =>
    match x, y with
    | .ok u, .ok v =>
      if h : u = v then .isTrue (h ▸ rfl)
      else .isFalse (fun hc => h (Except.ok.inj hc))
    | .error u, .error v =>
      if h : u = v then .isTrue (h ▸ rfl)
      else .isFalse (fun hc => h (Except.error.inj hc))
    | .ok _, .error _ => .isFalse (fun hc => Except.noConfusion hc)
    | .error _, .ok _ => .isFalse (fun hc => Except.noConfusion hc)

/-- Outcome of stop_load as a gboolean (TRUE iff no error was set). -/
def isOkResult : Except PsdError (List Nat) → Bool
  | .ok _ => true
  | .error _ => false

/-- A minimal valid RLE-compressed PSD stream: header (signature 8BPS,
version 1, 3 channels, 1 row, 1 column, depth 8, color mode RGB(3)), three
empty skippable blocks, compression type 1, line-length table [2,2,2], and
one 2-byte RLE line (a literal run of one byte) per channel with values
10, 20, 30. -/
def c1stream : List Nat :=
  [56, 66, 80, 83, 0, 1, 0, 0, 0, 0, 0, 0, 0, 3, 0, 0, 0, 1, 0, 0, 0, 1, 0, 8, 0, 3] ++
  [0, 0, 0, 0] ++ [0, 0, 0, 0] ++ [0, 0, 0, 0] ++
  [0, 1] ++
  [0, 2, 0, 2, 0, 2] ++
  [0, 10, 0, 20, 0, 30]

/-- A 26-byte header declaring color mode Indexed (2), depth 8, 1 channel,
1 row, 1 column. -/
def hdrIndexed : List Nat :=
  [56, 66, 80, 83, 0, 1, 0, 0, 0, 0, 0, 0, 0, 1, 0, 0, 0, 1, 0, 0, 0, 1, 0, 8, 0, 2]

/-- A 26-byte header declaring color mode Lab (9), depth 8. -/
def hdrLab : List Nat :=
  [56, 66, 80, 83, 0, 1, 0, 0, 0, 0, 0, 0, 0, 1, 0, 0, 0, 1, 0, 0, 0, 1, 0, 8, 0, 9]

/-- A 26-byte header declaring depth 32, color mode RGB (3), 3 channels. -/
def hdrDepth32 : List Nat :=
  [56, 66, 80, 83, 0, 1, 0, 0, 0, 0, 0, 0, 0, 3, 0, 0, 0, 1, 0, 0, 0, 1, 0, 32, 0, 3]

/-- A session that has just entered the first skippable-block state (as
reset_context leaves it). -/
def skipCtx0 : PsdContext :=
  { gdk_pixbuf__psd_image_begin_load with state := PSD_STATE_COLOR_MODE_BLOCK }

/-- A session in the compression-type state. -/
def compCtx : PsdContext :=
  { gdk_pixbuf__psd_image_begin_load with state := PSD_STATE_COMPRESSION }

/-- A completed Grayscale session: color mode 1, one 2x1 channel plane
[5, 15], terminal state reached. -/
def grayCtx : PsdContext :=
  { gdk_pixbuf__psd_image_begin_load with
    state := PSD_STATE_DONE
    colorMode := 1
    width := 2
    height := 1
    channels := 1
    channelsBuffers := [[5, 15]] }

/-! Helper lemmas. -/

/-- Characterisation of feed_buffer when the fill count has not exceeded the
target (the gint difference is nonnegative and fits a guint): it copies
min(target - filled, input length) bytes at offset filled. -/
theorem feed_buffer_eq (buffer data : List Nat) (br needed : Nat)
    (h1 : br ≤ needed) (h2 : needed < 4294967296) :
    feed_buffer buffer br data needed =
      (writeAt buffer br (data.take (min (needed - br) data.length)),
       br + min (needed - br) data.length,
       data.drop (min (needed - br) data.length),
       br + min (needed - br) data.length == needed) := by
  have he : (needed : Int) - (br : Int) = ((needed - br : Nat) : Int) := by
    omega
  have hU : ((((needed : Int) - (br : Int)) % 4294967296).toNat = needed - br) := by
    rw [he, Int.emod_eq_of_lt (Int.natCast_nonneg _) (by exact_mod_cast
      (by omega : needed - br < 4294967296)), Int.toNat_natCast]
  have hmin : (if needed - br > data.length then data.length else needed - br)
      = min (needed - br) data.length := by
    split <;> omega
  simp only [feed_buffer, hU, hmin]

/-! Claim theorems. -/

/-- Claim C7: for every feed_buffer call with filled ≤ target and a
destination sized at least target, exactly min(target - filled, input length)
bytes are copied from the input to the destination at offset filled, the
input advances and shrinks by that amount, the fill count increases by that
amount, the call returns true iff the fill count then equals target, and the
fill count never exceeds the target. -/
theorem feed_buffer_contract (buffer data : List Nat) (br needed : Nat)
    (h1 : br ≤ needed) (hsz : needed ≤ buffer.length) (h2 : needed < 4294967296) :
    (feed_buffer buffer br data needed).1 =
        writeAt buffer br (data.take (min (needed - br) data.length)) ∧
    (feed_buffer buffer br data needed).2.1 = br + min (needed - br) data.length ∧
    (feed_buffer buffer br data needed).2.2.1 =
        data.drop (min (needed - br) data.length) ∧
    ((feed_buffer buffer br data needed).2.2.2 = true ↔
        br + min (needed - br) data.length = needed) ∧
    br + min (needed - br) data.length ≤ needed := by
  rw [feed_buffer_eq buffer data br needed h1 h2]
  refine ⟨rfl, rfl, rfl, ?_, by omega⟩
  simp

/-- Witness for C7 at a concrete input: buffer of 4 bytes filled to 1,
target 4, two input bytes available. -/
theorem feed_buffer_contract_witness :
    (feed_buffer [0, 0, 0, 0] 1 [7, 8] 4).2.1 = 1 + min (4 - 1) [7, 8].length :=
  (feed_buffer_contract [0, 0, 0, 0] [7, 8] 1 4 (by omega) (by simp) (by omega)).2.1

/-- gcharOf of a byte below 128 is that byte. -/
theorem gcharOf_of_lt (b : Nat) (h : b < 128) : gcharOf b = (b : Int) := by
  unfold gcharOf
  rw [Nat.mod_eq_of_lt (by omega : b < 256), if_pos h]
  omega

/-- gcharOf of byte 128 is -128. -/
theorem gcharOf_of_eq_128 (b : Nat) (h : b = 128) : gcharOf b = -128 := by
  subst h
  decide

/-- gcharOf of a byte above 128 is that byte minus 256. -/
theorem gcharOf_of_gt (b : Nat) (h1 : 128 < b) (h2 : b < 256) :
    gcharOf b = (b : Int) - 256 := by
  unfold gcharOf
  rw [Nat.mod_eq_of_lt h2, if_neg (by omega)]
  omega

/-- Claim C3: decompress_line interprets each control byte as signed 8-bit:
value 128 (gchar -128) consumes one byte and emits nothing; value b < 128
(gchar in [0,127]) copies the next b+1 source bytes verbatim; value b > 128
(gchar in [-127,-1]) replicates the single next source byte 257-b times; and
the three concrete streams of the claim decode as stated. -/
theorem decompress_line_packbits_semantics :
    (∀ (src : List Nat) (br b : Nat), src.getD br 0 = b → b < 256 →
      ((b = 128 → decompressStep src br = ((br + 1) % 65536, [])) ∧
       (b < 128 → decompressStep src br =
         (((br + 1) % 65536 + (b + 1)) % 65536,
          (List.range (b + 1)).map
            (fun k => src.getD (((br + 1) % 65536 + k) % 65536) 0))) ∧
       (128 < b → decompressStep src br =
         (((br + 1) % 65536 + 1) % 65536,
          List.replicate (257 - b) (src.getD ((br + 1) % 65536) 0))))) ∧
    (∀ b0 b1 b2 b3 b4 : Nat,
      decompress_line [4, b0, b1, b2, b3, b4] 6 = some [b0, b1, b2, b3, b4]) ∧
    decompress_line [0xFE, 0x7F] 2 = some [0x7F, 0x7F, 0x7F] ∧
    decompress_line [0x80] 1 = some [] := by
  refine ⟨?_, ?_, by decide, by decide⟩
  · intro src br b hb hb256
    refine ⟨?_, ?_, ?_⟩
    · intro h128
      subst h128
      simp only [decompressStep]
      rw [hb, gcharOf_of_eq_128 128 rfl, if_pos (show (-128 : Int) = -128 from rfl)]
    · intro hlt
      simp only [decompressStep]
      rw [hb, gcharOf_of_lt b hlt, if_neg (by omega), if_pos (by omega)]
      have hc : ((b : Int) + 1).toNat = b + 1 := by omega
      rw [hc]
    · intro hgt
      simp only [decompressStep]
      rw [hb, gcharOf_of_gt b hgt hb256, if_neg (by omega), if_neg (by omega)]
      have hc : (1 - ((b : Int) - 256)).toNat = 257 - b := by omega
      rw [hc]
  · intro b0 b1 b2 b3 b4
    rfl

/-- Witness for C3 at a concrete input: control byte 128 at offset 0. -/
theorem decompress_line_packbits_semantics_witness :
    decompressStep [128] 0 = ((0 + 1) % 65536, []) :=
  ((decompress_line_packbits_semantics.1 [128] 0 128 rfl (by omega)).1 rfl)

/-- A 65536-byte all-zero source buffer (large enough that every read of
decompress_line through its 16-bit counter is in range). -/
def zeros65536 : List Nat := List.replicate 65536 0

/-- Reading the all-zero buffer gives 0 at every index. -/
theorem zeros65536_getD (i : Nat) : zeros65536.getD i 0 = 0 := by
  unfold zeros65536
  rw [List.getD_eq_getElem?_getD, List.getElem?_replicate]
  split <;> rfl

/-- On the all-zero source every loop iteration of decompress_line is a
literal run of one byte: the 16-bit counter advances by exactly 2 (mod 2^16)
and one zero byte is emitted. -/
theorem decompressStep_zeros (br : Nat) (h : br + 1 < 65536) :
    decompressStep zeros65536 br = ((br + 2) % 65536, [0]) := by
  have hbr1 : (br + 1) % 65536 = br + 1 := Nat.mod_eq_of_lt h
  simp only [decompressStep, zeros65536_getD, gcharOf_of_lt 0 (by omega)]
  rw [if_neg (by omega), if_pos (by omega), hbr1]
  norm_num

/-- With declared length 65535 and the all-zero source, the counter takes
only even values below 2^16, never reaches 65535, and the loop never exits,
whatever the fuel. -/
theorem decompressLoop_zeros_65535 (fuel : Nat) :
    ∀ (br : Nat) (acc : List Nat), br % 2 = 0 → br < 65536 →
      decompressLoop zeros65536 65535 fuel br acc = none := by
  induction fuel with
  | zero =>
    intro br acc he hlt
    simp only [decompressLoop]
    rw [if_pos (by omega)]
  | succ f ih =>
    intro br acc he hlt
    simp only [decompressLoop]
    rw [if_pos (by omega), decompressStep_zeros br (by omega)]
    exact ih ((br + 2) % 65536) (acc ++ [0]) (by omega) (by omega)

/-- Counterexample to claim C10 as stated: on an all-zero source buffer and
declared compressed line length 65535 (a value the uint16 line-length table
can hold), the decompress_line loop never completes: its 16-bit bytes_read
counter only takes even values and wraps past the odd bound forever. -/
theorem decompress_line_nontermination : ¬ decompressTerminates zeros65536 65535 := by
  intro h
  obtain ⟨fuel, hf⟩ := h
  rw [decompressLoop_zeros_65535 fuel 0 [] rfl (by omega)] at hf
  exact Bool.noConfusion hf

/-- Bounds on gcharOf: always in [-128, 127]. -/
theorem gcharOf_bounds (b : Nat) : -128 ≤ gcharOf b ∧ gcharOf b ≤ 127 := by
  unfold gcharOf
  split <;> omega

/-- One iteration of the decompress_line loop advances the counter by at
least 1 and at most 129 when no 16-bit wrap can occur. -/
theorem decompressStep_fst_bounds (src : List Nat) (br : Nat) (h : br ≤ 65406) :
    br + 1 ≤ (decompressStep src br).1 ∧ (decompressStep src br).1 ≤ br + 129 := by
  have hbr1 : (br + 1) % 65536 = br + 1 := Nat.mod_eq_of_lt (by omega)
  have hg := gcharOf_bounds (src.getD br 0)
  simp only [decompressStep]
  split
  · rw [hbr1]
    omega
  · split
    · rename_i hc1 hc2
      have hcount : 1 ≤ ((gcharOf (src.getD br 0)) + 1).toNat ∧
          ((gcharOf (src.getD br 0)) + 1).toNat ≤ 128 := by
        omega
      rw [hbr1, Nat.mod_eq_of_lt (by omega)]
      omega
    · rw [hbr1, Nat.mod_eq_of_lt (by omega)]
      omega

/-- While the counter cannot wrap, it strictly increases, so fuel equal to
the remaining distance to the bound always suffices. -/
theorem decompressLoop_total (src : List Nat) (lineLength : Nat)
    (hL : lineLength ≤ 65407) :
    ∀ (fuel br : Nat) (acc : List Nat), lineLength ≤ br + fuel →
      (decompressLoop src lineLength fuel br acc).isSome = true := by
  intro fuel
  induction fuel with
  | zero =>
    intro br acc h
    simp only [decompressLoop]
    rw [if_neg (by omega)]
    rfl
  | succ f ih =>
    intro br acc h
    simp only [decompressLoop]
    by_cases hbr : br < lineLength
    · rw [if_pos hbr]
      have hb := decompressStep_fst_bounds src br (by omega)
      exact ih _ _ (by omega)
    · rw [if_neg hbr]
      rfl

/-- Claim C10 (amended): decompress_line terminates for every source buffer
whenever the declared compressed line length is at most 65407 (so that the
16-bit bytes_read counter can never wrap past the bound); without that
restriction the loop can run forever. -/
theorem decompress_line_terminates_below_wrap (src : List Nat) (lineLength : Nat)
    (h : lineLength ≤ 65407) :
    decompressTerminates src lineLength ∧
      (decompress_line src lineLength).isSome = true := by
  have hmain := decompressLoop_total src lineLength h lineLength 0 [] (by omega)
  exact ⟨⟨lineLength, hmain⟩, hmain⟩

/-- Witness for the amended C10 at a concrete input. -/
theorem decompress_line_terminates_below_wrap_witness :
    decompressTerminates [128] 1 ∧ (decompress_line [128] 1).isSome = true :=
  decompress_line_terminates_below_wrap [128] 1 (by omega)

/-- Claim C1: refuted on the code (code bug).  The claim asserts chunking
invariance; the 52-byte valid RLE stream c1stream fed in one call reaches the
terminal state, so stop_load succeeds and composes pixels, while the same
bytes fed one at a time leave the machine stuck in the first skippable-block
state (skip_block clears its 4-byte length fill count on every call), so
stop_load reports the corrupt-image error: the two chunkings give different
results. -/
theorem psd_chunking_not_invariant :
    resultSummary (gdk_pixbuf__psd_image_load_increment
      gdk_pixbuf__psd_image_begin_load c1stream) = some (PSD_STATE_DONE, 3) ∧
    resultSummary (psdFeedChunks gdk_pixbuf__psd_image_begin_load
      (c1stream.map (fun b => [b]))) = some (PSD_STATE_COLOR_MODE_BLOCK, 3) ∧
    (∀ c, gdk_pixbuf__psd_image_load_increment
        gdk_pixbuf__psd_image_begin_load c1stream = .ok c →
      isOkResult (gdk_pixbuf__psd_image_stop_load c) = true) ∧
    (∀ c, psdFeedChunks gdk_pixbuf__psd_image_begin_load
        (c1stream.map (fun b => [b])) = .ok c →
      gdk_pixbuf__psd_image_stop_load c = .error .corruptImage) := by
  have h1 : resultSummary (gdk_pixbuf__psd_image_load_increment
      gdk_pixbuf__psd_image_begin_load c1stream) = some (PSD_STATE_DONE, 3) := by
    set_option maxHeartbeats 4000000 in decide
  have h2 : resultSummary (psdFeedChunks gdk_pixbuf__psd_image_begin_load
      (c1stream.map (fun b => [b]))) = some (PSD_STATE_COLOR_MODE_BLOCK, 3) := by
    set_option maxHeartbeats 4000000 in decide
  refine ⟨h1, h2, ?_, ?_⟩
  · intro c hc
    rw [hc] at h1
    simp only [resultSummary] at h1
    rw [Option.some.injEq, Prod.mk.injEq] at h1
    unfold gdk_pixbuf__psd_image_stop_load
    rw [if_pos h1.1]
    rfl
  · intro c hc
    rw [hc] at h2
    simp only [resultSummary] at h2
    rw [Option.some.injEq, Prod.mk.injEq] at h2
    unfold gdk_pixbuf__psd_image_stop_load
    rw [if_neg (by rw [h2.1]; exact fun h => PsdReadState.noConfusion h)]

/-- Claim C2: refuted on the code (code bug).  The header state of the
incremental loader performs no color-mode or depth validation: a header
declaring Indexed (2) or Lab (9) color mode, or depth 32, is accepted
without error, the channel buffers are allocated, and the machine advances
to the first skippable-block state. -/
theorem psd_header_no_validation :
    resultSummary (gdk_pixbuf__psd_image_load_increment
      gdk_pixbuf__psd_image_begin_load hdrIndexed) =
        some (PSD_STATE_COLOR_MODE_BLOCK, 1) ∧
    resultSummary (gdk_pixbuf__psd_image_load_increment
      gdk_pixbuf__psd_image_begin_load hdrLab) =
        some (PSD_STATE_COLOR_MODE_BLOCK, 1) ∧
    resultSummary (gdk_pixbuf__psd_image_load_increment
      gdk_pixbuf__psd_image_begin_load hdrDepth32) =
        some (PSD_STATE_COLOR_MODE_BLOCK, 3) := by
  refine ⟨by decide, by decide, by decide⟩

/-- Claim C5: refuted on the code (code bug).  stop_load composes channel
planes 0, 1 and 2 as R, G, B whatever the color mode; for a completed
Grayscale session with single plane [5, 15] (width 2, height 1) the model
yields 5,0,0,15,0,0 (the C code reads the nonexistent planes 1 and 2 out of
bounds), not the claimed replication 5,5,5,15,15,15. -/
theorem psd_grayscale_composition_not_replicated :
    gdk_pixbuf__psd_image_stop_load grayCtx = .ok [5, 0, 0, 15, 0, 0] ∧
    gdk_pixbuf__psd_image_stop_load grayCtx ≠ .ok [5, 5, 5, 15, 15, 15] := by
  constructor
  · rfl
  · intro h
    rw [show gdk_pixbuf__psd_image_stop_load grayCtx = .ok [5, 0, 0, 15, 0, 0]
      from rfl] at h
    simp at h

/-- Claim C6: stop_load reports the corrupt/incomplete-image error exactly
when the machine has not reached the terminal state, the composition pass
runs only when it has, and a successful stop always returns the composed
pixels of the terminal session. -/
theorem psd_stop_load_incomplete_iff_not_done (ctx : PsdContext) :
    (isOkResult (gdk_pixbuf__psd_image_stop_load ctx) = false ↔
      ctx.state ≠ PSD_STATE_DONE) ∧
    (∀ px, gdk_pixbuf__psd_image_stop_load ctx = .ok px →
      ctx.state = PSD_STATE_DONE ∧ px = composePixels ctx) ∧
    (ctx.state ≠ PSD_STATE_DONE →
      gdk_pixbuf__psd_image_stop_load ctx = .error .corruptImage) := by
  unfold gdk_pixbuf__psd_image_stop_load
  by_cases h : ctx.state = PSD_STATE_DONE
  · rw [if_pos h]
    refine ⟨by simp [isOkResult, h], ?_, fun hne => absurd h hne⟩
    intro px hpx
    simp only [Except.ok.injEq] at hpx
    exact ⟨h, hpx.symm⟩
  · rw [if_neg h]
    refine ⟨by simp [isOkResult, h], ?_, fun _ => rfl⟩
    intro px hpx
    simp at hpx

/-- Witness for C6: stop_load on a fresh session (still in the header
state) reports the corrupt-image error. -/
theorem psd_stop_load_incomplete_iff_not_done_witness :
    gdk_pixbuf__psd_image_stop_load gdk_pixbuf__psd_image_begin_load =
      .error .corruptImage :=
  (psd_stop_load_incomplete_iff_not_done gdk_pixbuf__psd_image_begin_load).2.2
    (by decide)

/-- Claim C8: refuted on the code (code bug).  Delivering the 4-byte length
prefix of a zero-length block as two 2-byte calls never completes the skip:
skip_block resets its fill count to zero on each call while the length is
unknown, so the second call still returns false and the length is still
unknown (fill count back at 2), where the claim requires it to return true
once prefix plus (empty) payload have been consumed. -/
theorem skip_block_split_length_lost :
    (skip_block skipCtx0 [0, 0]).2.2 = false ∧
    (skip_block (skip_block skipCtx0 [0, 0]).1 [0, 0]).2.2 = false ∧
    (skip_block (skip_block skipCtx0 [0, 0]).1 [0, 0]).1.bytesToSkipKnown = false ∧
    (skip_block (skip_block skipCtx0 [0, 0]).1 [0, 0]).1.bytesRead = 2 := by
  refine ⟨rfl, rfl, rfl, rfl⟩

/-- The COMPRESSION case of the switch with the two type bytes available in
one chunk: the two bytes are consumed, parsed big-endian, and dispatched. -/
theorem psd_compression_feed (ctx : PsdContext) (b0 b1 : Nat) (rest : List Nat)
    (hbr : ctx.bytesRead = 0) :
    feed_buffer ctx.buffer ctx.bytesRead (b0 :: b1 :: rest) 2 =
      (writeAt ctx.buffer 0 [b0, b1], 2, rest, true) := by
  rw [hbr, feed_buffer_eq ctx.buffer (b0 :: b1 :: rest) 0 2 (by omega) (by omega)]
  have hlen : (b0 :: b1 :: rest).length = rest.length + 2 := by
    simp
  have hm : min (2 - 0) (b0 :: b1 :: rest).length = 2 := by
    omega
  rw [hm]
  simp

/-- parse_uint16 at offset 0 after writing two bytes at offset 0. -/
theorem parse_uint16_writeAt (buf : List Nat) (b0 b1 : Nat)
    (hb0 : b0 < 256) (hb1 : b1 < 256) :
    parse_uint16 (writeAt buf 0 [b0, b1]) 0 = 256 * b0 + b1 := by
  unfold writeAt parse_uint16
  simp [Nat.mod_eq_of_lt hb0, Nat.mod_eq_of_lt hb1]

/-- Claim C9: in the Compression state with the 2 type bytes available, the
machine consumes exactly those two bytes, interprets them big-endian; type 1
advances to the Line Lengths state (with a counter reset), type 0 advances
directly to the Channel Data state leaving the line-length table untouched,
and any other value fails with the unsupported-compression error. -/
theorem psd_compression_dispatch (ctx : PsdContext) (b0 b1 : Nat) (rest : List Nat)
    (hstate : ctx.state = PSD_STATE_COMPRESSION) (hbr : ctx.bytesRead = 0)
    (hb0 : b0 < 256) (hb1 : b1 < 256) :
    (256 * b0 + b1 = 1 → loadIncrementStep ctx (b0 :: b1 :: rest) =
      .ok (reset_context { ctx with
        buffer := writeAt ctx.buffer 0 [b0, b1]
        bytesRead := 2
        compression := 1
        state := PSD_STATE_LINES_LENGTHS }) rest) ∧
    (256 * b0 + b1 = 0 → loadIncrementStep ctx (b0 :: b1 :: rest) =
      .ok { ctx with
        buffer := writeAt ctx.buffer 0 [b0, b1]
        bytesRead := 2
        compression := 0
        state := PSD_STATE_CHANNEL_DATA } rest) ∧
    (2 ≤ 256 * b0 + b1 → loadIncrementStep ctx (b0 :: b1 :: rest) =
      .fail .unsupportedCompression) := by
  have hfeed := psd_compression_feed ctx b0 b1 rest hbr
  have hparse := parse_uint16_writeAt ctx.buffer b0 b1 hb0 hb1
  refine ⟨?_, ?_, ?_⟩
  · intro hv
    simp only [loadIncrementStep, hstate, hfeed, hparse, hv]
    simp
  · intro hv
    simp only [loadIncrementStep, hstate, hfeed, hparse, hv]
    simp
  · intro hv
    simp only [loadIncrementStep, hstate, hfeed, hparse]
    rw [if_pos trivial, if_neg (by omega), if_neg (by omega)]

/-- Witness for C9: dispatching on type bytes 0,1 (RLE) from the
compression state. -/
theorem psd_compression_dispatch_witness :
    loadIncrementStep compCtx [0, 1] =
      .ok (reset_context { compCtx with
        buffer := writeAt compCtx.buffer 0 [0, 1]
        bytesRead := 2
        compression := 1
        state := PSD_STATE_LINES_LENGTHS }) [] :=
  (psd_compression_dispatch compCtx 0 1 [] rfl rfl (by omega) (by omega)).1 rfl

/-- The CHANNEL_DATA case with compression none: the switch only feeds the
accumulation buffer and mutates nothing else (the copy into the channel
plane is absent from the code). -/
theorem channel_data_none_step (ctx : PsdContext) (data : List Nat)
    (hs : ctx.state = PSD_STATE_CHANNEL_DATA) (hc : ctx.compression = 0) :
    loadIncrementStep ctx data =
      .ok { ctx with
        buffer := (feed_buffer ctx.buffer ctx.bytesRead data ctx.width).1
        bytesRead := (feed_buffer ctx.buffer ctx.bytesRead data ctx.width).2.1 }
        ((feed_buffer ctx.buffer ctx.bytesRead data ctx.width).2.2.1) := by
  simp only [loadIncrementStep, hs, hc]
  rw [if_neg (by omega)]

/-- Claim C4: refuted on the code (code bug).  In the Channel Data state
with compression none, accumulating width bytes (not width times
bytes-per-depth-unit) triggers no copy into the channel plane, no row or
channel advance and no transition; moreover once the width-byte target is
met with input still pending, the while loop of load_increment consumes
nothing and spins forever (modelled as hang for every fuel). -/
theorem psd_uncompressed_channel_data_stalls :
    (∀ (fuel : Nat) (ctx : PsdContext) (data : List Nat),
      ctx.state = PSD_STATE_CHANNEL_DATA → ctx.compression = 0 →
      ctx.bytesRead ≤ ctx.width → ctx.width < 4294967296 →
      ctx.width - ctx.bytesRead < data.length →
      psdRun fuel ctx data = .hang) ∧
    (∀ (ctx : PsdContext) (data : List Nat) (c2 : PsdContext) (rest : List Nat),
      ctx.state = PSD_STATE_CHANNEL_DATA → ctx.compression = 0 →
      loadIncrementStep ctx data = .ok c2 rest →
      c2.channelsBuffers = ctx.channelsBuffers ∧
      c2.currentRow = ctx.currentRow ∧
      c2.currentChannel = ctx.currentChannel ∧
      c2.position = ctx.position ∧
      c2.state = PSD_STATE_CHANNEL_DATA) := by
  constructor
  · intro fuel
    induction fuel with
    | zero =>
      intro ctx data hs hc hble hw hlen
      cases data with
      | nil => simp at hlen
      | cons d ds => rfl
    | succ f ih =>
      intro ctx data hs hc hble hw hlen
      cases data with
      | nil => simp at hlen
      | cons d ds =>
        have hstep := channel_data_none_step ctx (d :: ds) hs hc
        have hfeed := feed_buffer_eq ctx.buffer (d :: ds) ctx.bytesRead ctx.width
          hble hw
        rw [hfeed] at hstep
        rw [show psdRun (f + 1) ctx (d :: ds) =
          (match loadIncrementStep ctx (d :: ds) with
           | .fail e => .fail e
           | .ok c2 r2 => psdRun f c2 r2) from rfl]
        rw [hstep]
        have hm : min (ctx.width - ctx.bytesRead) (d :: ds).length =
            ctx.width - ctx.bytesRead := by
          simp only [List.length_cons]
          simp only [List.length_cons] at hlen
          omega
        refine ih _ _ hs hc ?_ hw ?_
        · show ctx.bytesRead +
            min (ctx.width - ctx.bytesRead) (d :: ds).length ≤ ctx.width
          omega
        · show ctx.width - (ctx.bytesRead +
              min (ctx.width - ctx.bytesRead) (d :: ds).length) <
            ((d :: ds).drop
              (min (ctx.width - ctx.bytesRead) (d :: ds).length)).length
          simp only [List.length_drop, List.length_cons]
          simp only [List.length_cons] at hlen
          omega
  · intro ctx data c2 rest hs hc heq
    rw [channel_data_none_step ctx data hs hc] at heq
    injection heq with h1 h2
    subst h1
    exact ⟨rfl, rfl, rfl, rfl, hs⟩
